import Mathlib

/-!
Shallow embedding of the reconciliation-relevant core of
`src/omdb_tmdb_pmdb_script.py` (the PMDB ID and Rating Mapper).

Modelling conventions:
- Python dicts holding ratings (`label -> score`) are association lists
  `List (String × ℚ)` in insertion order; `dinsert` models Python dict
  assignment (update in place, append if new).
- JSON fields that may be missing are `Option`; Python truthiness of a
  string is `some s` with `s ≠ ""`, of a number `some t` with `t ≠ 0`.
- Python `float` arithmetic is modelled over `ℚ`; `round(x, 1)` is
  modelled as round-half-to-even at one decimal, which agrees with
  Python on every value this program produces.
- `float(s)` string parsing is modelled for plain decimal literals
  (optional sign, digits, optional decimal point, surrounding
  whitespace); exponent and inf/nan forms, which never occur in the
  data this program parses, are treated as unparseable.
- Code that can raise an uncaught exception returns `Except Unit`.
-/

namespace PmdbMapper

/-- Models Python `s.strip()` and the whitespace stripping of
`float`: leading and trailing whitespace removed. -/
def pyStrip (s : String) : String :=
  String.mk (((s.toList.dropWhile Char.isWhitespace).reverse.dropWhile
    Char.isWhitespace).reverse)

/-- Models Python `s.upper()` on the ASCII labels this program
uses. -/
def pyUpper (s : String) : String :=
  String.mk (s.toList.map Char.toUpper)

/-- Numeric value of a list of decimal digit characters. -/
def digitsToNat (cs : List Char) : ℕ :=
  cs.foldl (fun a c => a * 10 + (c.toNat - 48)) 0

/-- Models Python `float(s)` on plain decimal literals: strip
surrounding whitespace, optional sign, integer part, optional
fractional part.  Returns `none` where Python raises `ValueError`. -/
def pyFloat (s : String) : Option ℚ :=
  let cs := (pyStrip s).toList
  let sgn : ℚ := match cs with
    | '-' :: _ => -1
    | _ => 1
  let cs1 : List Char := match cs with
    | '-' :: rest => rest
    | '+' :: rest => rest
    | _ => cs
  let ip := cs1.takeWhile (fun c => c.isDigit)
  let r1 := cs1.dropWhile (fun c => c.isDigit)
  match r1 with
  | [] => if ip.isEmpty then none else some (sgn * (digitsToNat ip : ℚ))
  | '.' :: r2 =>
    let fp := r2.takeWhile (fun c => c.isDigit)
    let r3 := r2.dropWhile (fun c => c.isDigit)
    if !r3.isEmpty then none
    else if ip.isEmpty && fp.isEmpty then none
    else some (sgn * ((digitsToNat ip : ℚ) + (digitsToNat fp : ℚ) / (10 ^ fp.length)))
  | _ => none

/-- Round-half-to-even to an integer, as Python `round` does. -/
def roundHalfEven (q : ℚ) : ℤ :=
  if q - (⌊q⌋ : ℚ) < 1/2 then ⌊q⌋
  else if 1/2 < q - (⌊q⌋ : ℚ) then ⌊q⌋ + 1
  else if ⌊q⌋ % 2 = 0 then ⌊q⌋ else ⌊q⌋ + 1

/-- Models Python `round(q, 1)`. -/
def round1 (q : ℚ) : ℚ := (roundHalfEven (q * 10) : ℚ) / 10

/-- Python dict assignment `d[k] = v` on an insertion-ordered
association list: overwrite in place if the key exists, else append. -/
def dinsert (k : String) (v : ℚ) : List (String × ℚ) → List (String × ℚ)
  | [] => [(k, v)]
  | p :: rest => if p.1 = k then (k, v) :: rest else p :: dinsert k v rest

/-- Python dict lookup `d.get(k)` on an association list. -/
def plookup (l : List (String × ℚ)) (k : String) : Option ℚ :=
  (l.find? (fun p => p.1 = k)).map (fun p => p.2)

/-- Models `value.replace('%', '')`: every percent sign removed. -/
def stripPct (v : String) : String :=
  String.mk (v.toList.filter (fun c => c ≠ '%'))

/-- Models `value.split('/')[0]`: the part before the first slash. -/
def beforeSlash (v : String) : String :=
  String.mk (v.toList.takeWhile (fun c => c ≠ '/'))

/-- One entry of the OMDb `Ratings` array (`Source` / `Value` keys,
each possibly missing). -/
structure OmdbRatingEntry where
  Source : Option String
  Value : Option String
deriving DecidableEq

/-- The OMDb payload fields read by `parse_omdb_ratings`. -/
structure OmdbData where
  imdbRating : Option String
  Ratings : List OmdbRatingEntry
deriving DecidableEq

/-- The `imdbRating` handling at the top of `parse_omdb_ratings`:
truthy, not the `N/A` sentinel, multiplied by 10 and rounded to one
decimal under label `IM`; a `ValueError` from `float` is swallowed. -/
def imdbInit (d : OmdbData) : List (String × ℚ) :=
  match d.imdbRating with
  | some s =>
    if s ≠ "" ∧ s ≠ "N/A" then
      match pyFloat s with
      | some x => [("IM", round1 (x * 10))]
      | none => []
    else []
  | none => []

/-- One iteration of the `for rating in omdb_data.get('Ratings', [])`
loop.  A `Rotten Tomatoes` value has its percent signs removed, a
`Metacritic` value is cut before the slash; `ValueError`/`IndexError`
skip the entry.  A matching source whose `Value` key is missing makes
Python call `.replace`/`.split` on `None`, an uncaught
`AttributeError`, modelled as `Except.error`. -/
def omdbStep (acc : List (String × ℚ)) (e : OmdbRatingEntry) :
    Except Unit (List (String × ℚ)) :=
  if e.Source = some "Rotten Tomatoes" ∧ e.Value ≠ some "N/A" then
    match e.Value with
    | none => .error ()
    | some v =>
      match pyFloat (stripPct v) with
      | some x => .ok (dinsert "RT" x acc)
      | none => .ok acc
  else if e.Source = some "Metacritic" ∧ e.Value ≠ some "N/A" then
    match e.Value with
    | none => .error ()
    | some v =>
      match pyFloat (beforeSlash v) with
      | some x => .ok (dinsert "MC" x acc)
      | none => .ok acc
  else .ok acc

/-- The `Ratings` loop of `parse_omdb_ratings`. -/
def omdbLoop : List OmdbRatingEntry → List (String × ℚ) →
    Except Unit (List (String × ℚ))
  | [], acc => .ok acc
  | e :: rest, acc =>
    match omdbStep acc e with
    | .ok acc2 => omdbLoop rest acc2
    | .error u => .error u

/-- `parse_omdb_ratings` (lines 214-240): the `IM` entry from
`imdbRating` followed by the `RT`/`MC` entries from the `Ratings`
array. -/
def parse_omdb_ratings (d : OmdbData) : Except Unit (List (String × ℚ)) :=
  omdbLoop d.Ratings (imdbInit d)

/-- Decidable equality of `Except` results, so concrete runs of the
parser can be checked by evaluation. -/
instance {ε α : Type} [DecidableEq ε] [DecidableEq α] :
    DecidableEq (Except ε α) := fun a b =>
  match a, b with
  | .ok x, .ok y =>
    match decEq x y with
    | isTrue h => isTrue (by rw [h])
    | isFalse h => isFalse (by intro he; cases he; exact h rfl)
  | .error x, .error y =>
    match decEq x y with
    | isTrue h => isTrue (by rw [h])
    | isFalse h => isFalse (by intro he; cases he; exact h rfl)
  | .ok _, .error _ => isFalse (by intro he; cases he)
  | .error _, .ok _ => isFalse (by intro he; cases he)

/-- The TMDB details payload field read by `parse_tmdb_rating`. -/
structure TmdbDetails where
  vote_average : Option ℚ
deriving DecidableEq

/-- `parse_tmdb_rating` (lines 242-251): `None` (or a falsy details
dict) gives no rating; a truthy positive `vote_average` is scaled by
10 and rounded to one decimal. -/
def parse_tmdb_rating (d : Option TmdbDetails) : Option ℚ :=
  match d with
  | none => none
  | some dd =>
    match dd.vote_average with
    | none => none
    | some v => if v ≠ 0 ∧ 0 < v then some (round1 (v * 10)) else none

/-- The split of collected ratings into labels not yet in PMDB
(lines 532-535). -/
def new_ratings (ratings : List (String × ℚ)) (existing_labels : List String) :
    List (String × ℚ) :=
  ratings.filter (fun p => !(existing_labels.contains (pyUpper p.1)))

/-- The split of collected ratings into labels already in PMDB
(lines 536-539). -/
def existing_ratings (ratings : List (String × ℚ)) (existing_labels : List String) :
    List (String × ℚ) :=
  ratings.filter (fun p => existing_labels.contains (pyUpper p.1))

/-- Python truthiness of an optional string. -/
def truthyS : Option String → Bool
  | some s => !(s == "")
  | none => false

/-- Python `str` on an optional value already holding a string. -/
def strOf : Option String → String
  | some s => s
  | none => "None"

/-- Lookup `existing_mappings[k]` (the dict produced by
`get_existing_mappings`, modelled as an association list). -/
def dictGetList (em : List (String × List String)) (k : String) :
    Option (List String) :=
  (em.find? (fun p => p.1 = k)).map (fun p => p.2)

/-- Models `k in existing_mappings and v in existing_mappings[k]`:
exact, case-sensitive string membership. -/
def mapContains (em : List (String × List String)) (k v : String) : Bool :=
  match dictGetList em k with
  | some vs => vs.contains v
  | none => false

/-- `imdb_exists` (line 523). -/
def imdb_exists (imdbId : String) (em : List (String × List String)) : Bool :=
  mapContains em "imdb" imdbId

/-- `tvdb_exists` (lines 524-525): the TVDB id is truthy and its
string form is among the existing `tvdb` mapping values. -/
def tvdb_exists (tvdbId : Option String) (em : List (String × List String)) : Bool :=
  truthyS tvdbId && mapContains em "tvdb" (strOf tvdbId)

/-- `mappings_to_submit` (lines 548-552): the `imdb` mapping when not
already present, then the `tvdb` mapping when truthy and not already
present. -/
def mappings_to_submit (imdbId : String) (tvdbId : Option String)
    (em : List (String × List String)) : List (String × String) :=
  (if imdb_exists imdbId em then [] else [("imdb", imdbId)]) ++
  (if truthyS tvdbId && !(tvdb_exists tvdbId em) then [("tvdb", strOf tvdbId)] else [])

/-- A remote-identifier entry inside a TVDB search result. -/
structure RemoteId where
  sourceName : Option String
  id : Option String
deriving DecidableEq

/-- A TVDB search result: its `tvdb_id` and its `remote_ids` list. -/
structure TvdbResult where
  tvdb_id : Option String
  remote_ids : List RemoteId
deriving DecidableEq

/-- The inner test of the `search_tvdb_by_imdb` loop (lines 151-152):
`sourceName` is exactly `IMDB` and `id` is exactly the queried id. -/
def remoteMatches (imdbId : String) (rid : RemoteId) : Bool :=
  rid.sourceName == some "IMDB" && rid.id == some imdbId

/-- A result has an exact embedded IMDb match. -/
def hasExactImdb (imdbId : String) (r : TvdbResult) : Bool :=
  r.remote_ids.any (remoteMatches imdbId)

/-- The result-selection logic of `search_tvdb_by_imdb`
(lines 144-155): the first result with an exact embedded IMDb match,
else the first result, else none. -/
def search_tvdb_resolve (imdbId : String) (results : List TvdbResult) :
    Option TvdbResult :=
  match results.find? (hasExactImdb imdbId) with
  | some r => some r
  | none => results.head?

/-- The TVDB id used by `process_item` (lines 509-517): looked up only
for TV shows, from a truthy search result. -/
def tvdb_id_of (media_type : String) (search_result : Option TvdbResult) :
    Option String :=
  if media_type = "tv" then
    match search_result with
    | some r => r.tvdb_id
    | none => none
  else none

/-- Candidate identifier mappings as the spec words them (section 4.6
step 2): `imdb` always a candidate, `tvdb` a candidate exactly when a
truthy series identifier is in hand.  Used to compare the source's
`mappings_to_submit` against the spec's candidate-then-filter
description. -/
def candidate_mappings (imdbId : String) (tvdbId : Option String) :
    List (String × String) :=
  ("imdb", imdbId) :: (if truthyS tvdbId then [("tvdb", strOf tvdbId)] else [])

/-- One observed outcome of `requests.request` within `_make_request`:
a response with its status and body, a timeout, or another
transport-level failure. -/
inductive Attempt where
  | resp (status : ℕ) (body : String)
  | timeout
  | reqError (msg : String)
deriving DecidableEq

/-- What `_make_request` surfaces to its caller. -/
inductive ReqResult where
  | success (status : ℕ) (body : String)
  | timedOut
  | failed (cause : Attempt)
  | noReturn
deriving DecidableEq

/-- `MAX_RETRIES` (line 10). -/
def MAX_RETRIES : ℕ := 3

/-- `RETRY_DELAY` in seconds (line 11). -/
def RETRY_DELAY : ℕ := 1

/-- Whether `requests` raises on this attempt: `raise_for_status`
raises `HTTPError` (a `RequestException`) for 4xx/5xx statuses, and
timeouts or transport errors raise directly. -/
def isFailAttempt : Attempt → Bool
  | .resp s _ => 400 ≤ s && s < 600
  | .timeout => true
  | .reqError _ => true

/-- The error `_make_request` raises after the last attempt:
`APIError("Request timed out ...")` for a timeout, otherwise
`APIError("Request failed: ...")` carrying the cause. -/
def finalFail : Attempt → ReqResult
  | .timeout => .timedOut
  | a => .failed a

/-- The `for attempt in range(MAX_RETRIES)` loop of `_make_request`
(lines 75-87).  Returns the surfaced result, the number of attempts
issued, and the total seconds slept between attempts.  The oracle
gives the outcome of each attempt. -/
def mrLoop (oracle : ℕ → Attempt) : ℕ → ℕ → ReqResult × ℕ × ℕ
  | _, 0 => (.noReturn, 0, 0)
  | attempt, fuel + 1 =>
    match oracle attempt with
    | .resp s b =>
      if 400 ≤ s && s < 600 then
        if attempt == MAX_RETRIES - 1 then (.failed (.resp s b), attempt + 1, 0)
        else
          let r := mrLoop oracle (attempt + 1) fuel
          (r.1, r.2.1, r.2.2 + RETRY_DELAY)
      else (.success s b, attempt + 1, 0)
    | .timeout =>
      if attempt == MAX_RETRIES - 1 then (.timedOut, attempt + 1, 0)
      else
        let r := mrLoop oracle (attempt + 1) fuel
        (r.1, r.2.1, r.2.2 + RETRY_DELAY)
    | .reqError m =>
      if attempt == MAX_RETRIES - 1 then (.failed (.reqError m), attempt + 1, 0)
      else
        let r := mrLoop oracle (attempt + 1) fuel
        (r.1, r.2.1, r.2.2 + RETRY_DELAY)

/-- `_make_request` (lines 71-87) against an oracle of attempt
outcomes. -/
def make_request (oracle : ℕ → Attempt) : ReqResult × ℕ × ℕ :=
  mrLoop oracle 0 MAX_RETRIES

/-- Python truthiness of an optional time value. -/
def truthyT : Option ℚ → Bool
  | some t => !(t == 0)
  | none => false

/-- The mutable fields of `MovieTVCollector` read and written by
`get_tvdb_token`. -/
structure TvdbAuthState where
  tvdb_key : Option String
  tvdb_token : Option String
  token_timestamp : Option ℚ
deriving DecidableEq

/-- The outcome of the login POST inside `get_tvdb_token`: a parsed
response whose `data.token` may be missing, or an exception. -/
inductive LoginOutcome where
  | ok (token : Option String)
  | exn
deriving DecidableEq

/-- `TOKEN_EXPIRY` in seconds (line 41). -/
def TOKEN_EXPIRY : ℚ := 3600

/-- `get_tvdb_token` (lines 89-122): no key means no login attempt; a
truthy cached token with a truthy timestamp younger than an hour is
reused; otherwise a login is attempted, the token and timestamp are
overwritten on a parsed response, and an exception leaves the state
unchanged.  Returns the token handed back, the updated state, and
whether a login request was attempted. -/
def get_tvdb_token (st : TvdbAuthState) (now : ℚ) (login : LoginOutcome) :
    Option String × TvdbAuthState × Bool :=
  if !(truthyS st.tvdb_key) then (none, st, false)
  else if truthyS st.tvdb_token && truthyT st.token_timestamp &&
      decide (now - st.token_timestamp.getD 0 < TOKEN_EXPIRY) then
    (st.tvdb_token, st, false)
  else
    match login with
    | .exn => (none, st, true)
    | .ok tok =>
      ((if truthyS tok then tok else none),
       { st with tvdb_token := tok, token_timestamp := some now }, true)

/-- The media-kind prompt of `process_item` (lines 434-437): the
stripped input selects TV exactly when it is `2`, movie otherwise. -/
def chooseMediaType (s : String) : String :=
  if pyStrip s == "2" then "tv" else "movie"

/-! ## Helper lemmas -/

theorem contains_iff_mem (l : List String) (a : String) :
    l.contains a = true ↔ a ∈ l := List.elem_iff

/-- Claim C1: the reconciliation step partitions the collected
ratings: new and skipped ratings are exactly the collected ratings
whose upper-cased label is absent resp. present in the existing-label
set, the two parts are disjoint, together they are a permutation of
all collected ratings, and each rating keeps its original label
case. -/
theorem ratings_partition (ratings : List (String × ℚ)) (existing_labels : List String) :
    (∀ p : String × ℚ, p ∈ new_ratings ratings existing_labels ↔
      p ∈ ratings ∧ ¬ pyUpper p.1 ∈ existing_labels) ∧
    (∀ p : String × ℚ, p ∈ existing_ratings ratings existing_labels ↔
      p ∈ ratings ∧ pyUpper p.1 ∈ existing_labels) ∧
    (∀ p : String × ℚ, ¬ (p ∈ new_ratings ratings existing_labels ∧
      p ∈ existing_ratings ratings existing_labels)) ∧
    List.Perm
      (new_ratings ratings existing_labels ++ existing_ratings ratings existing_labels)
      ratings := by
  have hnew : ∀ p : String × ℚ, p ∈ new_ratings ratings existing_labels ↔
      p ∈ ratings ∧ ¬ pyUpper p.1 ∈ existing_labels := by
    intro p
    simp [new_ratings, List.mem_filter, contains_iff_mem]
  have hex : ∀ p : String × ℚ, p ∈ existing_ratings ratings existing_labels ↔
      p ∈ ratings ∧ pyUpper p.1 ∈ existing_labels := by
    intro p
    simp [existing_ratings, List.mem_filter, contains_iff_mem]
  refine ⟨hnew, hex, ?_, ?_⟩
  · intro p hp
    exact ((hnew p).mp hp.1).2 (((hex p).mp hp.2).2)
  · have h := List.filter_append_perm
      (fun p : String × ℚ => existing_labels.contains (pyUpper p.1)) ratings
    have h2 : List.Perm
        (new_ratings ratings existing_labels ++ existing_ratings ratings existing_labels)
        (existing_ratings ratings existing_labels ++ new_ratings ratings existing_labels) :=
      List.perm_append_comm
    refine h2.trans ?_
    simpa [existing_ratings, new_ratings] using h

/-- Witness for the partition theorem at a concrete input. -/
theorem ratings_partition_app :
    ("RT", (91 : ℚ)) ∈ new_ratings [("IM", 74), ("RT", 91)] ["IM"] := by
  exact (((ratings_partition [("IM", 74), ("RT", 91)] ["IM"]).1 ("RT", 91)).mpr
    (by decide))

/-- Claim C2: a second reconciliation run against a snapshot that
extends the first snapshot and contains everything the first run
submitted (each new mapping per id type and value, each new rating
label upper-cased) computes no new mappings and no new ratings. -/
theorem reconcile_idempotent (imdbId : String) (tvdbId : Option String)
    (ratings : List (String × ℚ)) (em em2 : List (String × List String))
    (labels labels2 : List String)
    (hm : ∀ k v, mapContains em k v = true → mapContains em2 k v = true)
    (hw : ∀ p ∈ mappings_to_submit imdbId tvdbId em, mapContains em2 p.1 p.2 = true)
    (hl : ∀ s ∈ labels, s ∈ labels2)
    (hr : ∀ p ∈ new_ratings ratings labels, pyUpper p.1 ∈ labels2) :
    mappings_to_submit imdbId tvdbId em2 = [] ∧ new_ratings ratings labels2 = [] := by
  constructor
  · have himdb : imdb_exists imdbId em2 = true := by
      cases hi : imdb_exists imdbId em with
      | true => exact hm "imdb" imdbId hi
      | false =>
        exact hw ("imdb", imdbId) (by simp [mappings_to_submit, hi])
    unfold mappings_to_submit
    rw [himdb]
    cases ht : truthyS tvdbId with
    | false => simp [ht]
    | true =>
      have htv : mapContains em2 "tvdb" (strOf tvdbId) = true := by
        cases hc : mapContains em "tvdb" (strOf tvdbId) with
        | true => exact hm _ _ hc
        | false =>
          refine hw ("tvdb", strOf tvdbId) ?_
          simp [mappings_to_submit, tvdb_exists, ht, hc]
      simp [tvdb_exists, ht, htv]
  · unfold new_ratings
    rw [List.filter_eq_nil_iff]
    intro p hp
    have hmem : pyUpper p.1 ∈ labels2 := by
      cases hc : labels.contains (pyUpper p.1) with
      | true => exact hl _ ((contains_iff_mem _ _).mp hc)
      | false => exact hr p (List.mem_filter.mpr ⟨hp, by rw [hc]; rfl⟩)
    have hc2 : labels2.contains (pyUpper p.1) = true := (contains_iff_mem _ _).mpr hmem
    simp [hc2, hmem]

/-- Witness for idempotence at a concrete input: after the first
run's writes are reflected, nothing is re-submitted. -/
theorem reconcile_idempotent_app :
    mappings_to_submit "tt1" (some "5") [("imdb", ["tt1"]), ("tvdb", ["5"])] = [] ∧
    new_ratings [("IM", 74), ("RT", 91)] ["IM", "RT"] = [] := by
  refine reconcile_idempotent "tt1" (some "5") [("IM", 74), ("RT", 91)] []
    [("imdb", ["tt1"]), ("tvdb", ["5"])] [] ["IM", "RT"] ?_ ?_ ?_ ?_
  · intro k v h
    simp [mapContains, dictGetList, List.find?] at h
  · decide
  · intro s hs
    cases hs
  · decide

/-- Claim C5: the series-identifier resolution returns the first
search result with an exact embedded IMDb match, else the first
result, else none; with two results where only the second matches,
the second is returned. -/
theorem tvdb_tiebreak (imdbId : String) :
    search_tvdb_resolve imdbId [] = none ∧
    (∀ results : List TvdbResult, (∀ r ∈ results, hasExactImdb imdbId r = false) →
      search_tvdb_resolve imdbId results = results.head?) ∧
    (∀ (pre : List TvdbResult) (r : TvdbResult) (post : List TvdbResult),
      (∀ r2 ∈ pre, hasExactImdb imdbId r2 = false) → hasExactImdb imdbId r = true →
      search_tvdb_resolve imdbId (pre ++ r :: post) = some r) ∧
    (∀ r1 r2 : TvdbResult, hasExactImdb imdbId r1 = false → hasExactImdb imdbId r2 = true →
      search_tvdb_resolve imdbId [r1, r2] = some r2) ∧
    (∀ r : TvdbResult, hasExactImdb imdbId r = true ↔
      ∃ rid ∈ r.remote_ids, rid.sourceName = some "IMDB" ∧ rid.id = some imdbId) := by
  have hfind : ∀ (pre : List TvdbResult) (r : TvdbResult) (post : List TvdbResult),
      (∀ r2 ∈ pre, hasExactImdb imdbId r2 = false) → hasExactImdb imdbId r = true →
      List.find? (hasExactImdb imdbId) (pre ++ r :: post) = some r := by
    intro pre
    induction pre with
    | nil =>
      intro r post _ hr
      simp [List.find?, hr]
    | cons a t ih =>
      intro r post hpre hr
      have ha : hasExactImdb imdbId a = false := hpre a (by simp)
      have ht := ih r post (fun r2 h2 => hpre r2 (by simp [h2])) hr
      simpa [List.find?, ha] using ht
  have hfirst : ∀ (pre : List TvdbResult) (r : TvdbResult) (post : List TvdbResult),
      (∀ r2 ∈ pre, hasExactImdb imdbId r2 = false) → hasExactImdb imdbId r = true →
      search_tvdb_resolve imdbId (pre ++ r :: post) = some r := by
    intro pre r post hpre hr
    unfold search_tvdb_resolve
    rw [hfind pre r post hpre hr]
  refine ⟨by simp [search_tvdb_resolve, List.find?], ?_, hfirst, ?_, ?_⟩
  · intro results hall
    have : results.find? (hasExactImdb imdbId) = none :=
      List.find?_eq_none.mpr (by intro x hx; simp [hall x hx])
    simp [search_tvdb_resolve, this]
  · intro r1 r2 h1 h2
    exact hfirst [r1] r2 [] (by intro r2 h; simp at h; simp [h, h1]) h2
  · intro r
    simp [hasExactImdb, remoteMatches, List.any_eq_true, Bool.and_eq_true, beq_iff_eq]

/-- Witness for the tie-break theorem at a concrete input. -/
theorem tvdb_tiebreak_app :
    search_tvdb_resolve "tt5"
      [⟨some "1", [⟨some "IMDB", some "tt9"⟩]⟩, ⟨some "2", [⟨some "IMDB", some "tt5"⟩]⟩] =
      some ⟨some "2", [⟨some "IMDB", some "tt5"⟩]⟩ :=
  (tvdb_tiebreak "tt5").2.2.2.1 ⟨some "1", [⟨some "IMDB", some "tt9"⟩]⟩
    ⟨some "2", [⟨some "IMDB", some "tt5"⟩]⟩ (by decide) (by decide)

/-- Claim C8: the submitted mappings are exactly the candidate
mappings (imdb always; tvdb only for series with a truthy resolved
identifier) whose value is not already contained, by exact string
comparison, in the existing-mappings entry for their id type. -/
theorem mapping_newness (media_type imdbId : String) (sr : Option TvdbResult)
    (em : List (String × List String)) :
    mappings_to_submit imdbId (tvdb_id_of media_type sr) em =
      (candidate_mappings imdbId (tvdb_id_of media_type sr)).filter
        (fun p => !(mapContains em p.1 p.2)) ∧
    (∀ t v : String, (t, v) ∈ candidate_mappings imdbId (tvdb_id_of media_type sr) ↔
      (t = "imdb" ∧ v = imdbId) ∨
      (t = "tvdb" ∧ media_type = "tv" ∧ (∃ r, sr = some r ∧ r.tvdb_id = some v) ∧
        v ≠ "")) := by
  constructor
  · cases hi : mapContains em "imdb" imdbId with
    | false =>
      cases ht : truthyS (tvdb_id_of media_type sr) with
      | false =>
        simp [mappings_to_submit, candidate_mappings, tvdb_exists, ht, hi,
          imdb_exists, List.filter]
      | true =>
        cases hc : mapContains em "tvdb" (strOf (tvdb_id_of media_type sr)) with
        | false =>
          simp [mappings_to_submit, candidate_mappings, tvdb_exists, ht, hc, hi,
            imdb_exists, List.filter]
        | true =>
          simp [mappings_to_submit, candidate_mappings, tvdb_exists, ht, hc, hi,
            imdb_exists, List.filter]
    | true =>
      cases ht : truthyS (tvdb_id_of media_type sr) with
      | false =>
        simp [mappings_to_submit, candidate_mappings, tvdb_exists, ht, hi,
          imdb_exists, List.filter]
      | true =>
        cases hc : mapContains em "tvdb" (strOf (tvdb_id_of media_type sr)) with
        | false =>
          simp [mappings_to_submit, candidate_mappings, tvdb_exists, ht, hc, hi,
            imdb_exists, List.filter]
        | true =>
          simp [mappings_to_submit, candidate_mappings, tvdb_exists, ht, hc, hi,
            imdb_exists, List.filter]
  · intro t v
    by_cases hmt : media_type = "tv"
    · cases sr with
      | none =>
        have hc : candidate_mappings imdbId (tvdb_id_of media_type none) =
            [("imdb", imdbId)] := by
          simp [candidate_mappings, tvdb_id_of, hmt, truthyS]
        rw [hc]
        simp only [List.mem_singleton, Prod.mk.injEq]
        constructor
        · intro h
          exact Or.inl h
        · rintro (h | ⟨rfl, h2, ⟨r2, hr2, hv2⟩, hne⟩)
          · exact h
          · cases hr2
      | some r =>
        cases hid : r.tvdb_id with
        | none =>
          have hc : candidate_mappings imdbId (tvdb_id_of media_type (some r)) =
              [("imdb", imdbId)] := by
            simp [candidate_mappings, tvdb_id_of, hmt, hid, truthyS]
          rw [hc]
          simp only [List.mem_singleton, Prod.mk.injEq]
          constructor
          · intro h
            exact Or.inl h
          · rintro (h | ⟨rfl, h2, ⟨r2, hr2, hv2⟩, hne⟩)
            · exact h
            · injection hr2 with hre
              subst hre
              rw [hid] at hv2
              cases hv2
        | some tv =>
          by_cases htv : tv = ""
          · have hc : candidate_mappings imdbId (tvdb_id_of media_type (some r)) =
                [("imdb", imdbId)] := by
              simp [candidate_mappings, tvdb_id_of, hmt, hid, truthyS, htv]
            rw [hc]
            simp only [List.mem_singleton, Prod.mk.injEq]
            constructor
            · intro h
              exact Or.inl h
            · rintro (h | ⟨rfl, h2, ⟨r2, hr2, hv2⟩, hne⟩)
              · exact h
              · injection hr2 with hre
                subst hre
                rw [hid] at hv2
                injection hv2 with hv3
                exact absurd (hv3 ▸ htv) hne
          · have hc : candidate_mappings imdbId (tvdb_id_of media_type (some r)) =
                [("imdb", imdbId), ("tvdb", tv)] := by
              simp [candidate_mappings, tvdb_id_of, hmt, hid, truthyS, htv, strOf]
            rw [hc]
            simp only [List.mem_cons, List.mem_singleton, List.not_mem_nil, or_false,
              Prod.mk.injEq]
            constructor
            · rintro (⟨rfl, rfl⟩ | ⟨rfl, rfl⟩)
              · exact Or.inl ⟨rfl, rfl⟩
              · exact Or.inr ⟨rfl, hmt, ⟨r, rfl, hid⟩, htv⟩
            · rintro (⟨rfl, rfl⟩ | ⟨rfl, h2, ⟨r2, hr2, hv2⟩, hne⟩)
              · exact Or.inl ⟨rfl, rfl⟩
              · injection hr2 with hre
                subst hre
                rw [hid] at hv2
                injection hv2 with hv3
                exact Or.inr ⟨rfl, hv3.symm⟩
    · have hc : candidate_mappings imdbId (tvdb_id_of media_type sr) =
          [("imdb", imdbId)] := by
        simp [candidate_mappings, tvdb_id_of, hmt, truthyS]
      rw [hc]
      simp only [List.mem_singleton, Prod.mk.injEq]
      constructor
      · intro h
        exact Or.inl h
      · rintro (h | ⟨rfl, h2, hrest⟩)
        · exact h
        · exact absurd h2 hmt

/-- Witness for the mapping-newness theorem at a concrete input. -/
theorem mapping_newness_app :
    mappings_to_submit "tt1" (tvdb_id_of "tv" (some ⟨some "5", []⟩)) [("imdb", ["tt1"])] =
      (candidate_mappings "tt1" (tvdb_id_of "tv" (some ⟨some "5", []⟩))).filter
        (fun p => !(mapContains [("imdb", ["tt1"])] p.1 p.2)) :=
  (mapping_newness "tv" "tt1" (some ⟨some "5", []⟩) [("imdb", ["tt1"])]).1

/-- Claim C10: the media-kind prompt accepts every input; the
stripped input selects the series kind exactly when it is the string
2, and every other input, including 1, empty, and arbitrary text,
selects the movie kind. -/
theorem media_kind_selection :
    (∀ s : String, chooseMediaType s = "tv" ∨ chooseMediaType s = "movie") ∧
    (∀ s : String, chooseMediaType s = "tv" ↔ pyStrip s = "2") ∧
    chooseMediaType "1" = "movie" ∧ chooseMediaType "" = "movie" ∧
    chooseMediaType "3" = "movie" ∧ chooseMediaType " 2 " = "tv" := by
  refine ⟨?_, ?_, by decide, by decide, by decide, by decide⟩
  · intro s
    unfold chooseMediaType
    by_cases h : pyStrip s == "2"
    · rw [if_pos h]
      exact Or.inl rfl
    · rw [if_neg h]
      exact Or.inr rfl
  · intro s
    unfold chooseMediaType
    by_cases h : pyStrip s = "2"
    · simp [h]
    · simp [h]

/-- Witness for the media-kind theorem at a concrete input. -/
theorem media_kind_selection_app : chooseMediaType "anything" = "movie" := by
  rcases (media_kind_selection).1 "anything" with h | h
  · have h2 := (media_kind_selection).2.1 "anything"
    rw [h2] at h
    exact absurd h (by decide)
  · exact h

/-! ## Lemmas about the ratings dictionary -/

theorem plookup_cons (p : String × ℚ) (t : List (String × ℚ)) (k : String) :
    plookup (p :: t) k = if p.1 = k then some p.2 else plookup t k := by
  by_cases h : p.1 = k <;> simp [plookup, List.find?, h]

theorem plookup_dinsert_ne (k k2 : String) (v : ℚ) (l : List (String × ℚ))
    (h : k2 ≠ k) : plookup (dinsert k v l) k2 = plookup l k2 := by
  induction l with
  | nil => simp [dinsert, plookup_cons, Ne.symm h]
  | cons p t ih =>
    by_cases hp : p.1 = k
    · rw [dinsert]
      rw [if_pos hp]
      rw [plookup_cons, plookup_cons]
      rw [if_neg (Ne.symm h)]
      rw [if_neg (by rw [hp]; exact Ne.symm h)]
    · rw [dinsert]
      rw [if_neg hp]
      rw [plookup_cons, plookup_cons, ih]

theorem mem_dinsert (p : String × ℚ) (k : String) (v : ℚ) (l : List (String × ℚ)) :
    p ∈ dinsert k v l → p = (k, v) ∨ p ∈ l := by
  induction l with
  | nil =>
    intro h
    simp [dinsert] at h
    exact Or.inl h
  | cons q t ih =>
    intro h
    by_cases hq : q.1 = k
    · rw [dinsert, if_pos hq] at h
      rcases List.mem_cons.mp h with h1 | h1
      · exact Or.inl h1
      · exact Or.inr (List.mem_cons_of_mem _ h1)
    · rw [dinsert, if_neg hq] at h
      rcases List.mem_cons.mp h with h1 | h1
      · exact Or.inr (by rw [h1]; exact List.mem_cons_self _ _)
      · rcases ih h1 with h2 | h2
        · exact Or.inl h2
        · exact Or.inr (List.mem_cons_of_mem _ h2)

/-- Case analysis on one successful step of the OMDb ratings loop:
either the accumulator is unchanged, or an `RT` entry was inserted
from a Rotten Tomatoes value, or an `MC` entry from a Metacritic
value. -/
theorem omdbStep_cases (acc out : List (String × ℚ)) (e : OmdbRatingEntry)
    (h : omdbStep acc e = .ok out) :
    out = acc ∨
    (∃ v x, e.Source = some "Rotten Tomatoes" ∧ e.Value = some v ∧
      e.Value ≠ some "N/A" ∧ pyFloat (stripPct v) = some x ∧
      out = dinsert "RT" x acc) ∨
    (∃ v x, e.Source = some "Metacritic" ∧ e.Value = some v ∧
      e.Value ≠ some "N/A" ∧ pyFloat (beforeSlash v) = some x ∧
      out = dinsert "MC" x acc) := by
  unfold omdbStep at h
  split_ifs at h with h1 h2
  · obtain ⟨hs, hv⟩ := h1
    split at h
    · cases h
    · rename_i v hVal
      split at h
      · rename_i x hx
        injection h with h
        exact Or.inr (Or.inl ⟨v, x, hs, hVal, hv, hx, h.symm⟩)
      · injection h with h
        exact Or.inl h.symm
  · obtain ⟨hs, hv⟩ := h2
    split at h
    · cases h
    · rename_i v hVal
      split at h
      · rename_i x hx
        injection h with h
        exact Or.inr (Or.inr ⟨v, x, hs, hVal, hv, hx, h.symm⟩)
      · injection h with h
        exact Or.inl h.symm
  · injection h with h
    exact Or.inl h.symm

/-- The loop never touches a key other than `RT` and `MC`. -/
theorem omdbLoop_plookup_other (K : String) (hRT : K ≠ "RT") (hMC : K ≠ "MC") :
    ∀ (l : List OmdbRatingEntry) (acc out : List (String × ℚ)),
    omdbLoop l acc = .ok out → plookup out K = plookup acc K := by
  intro l
  induction l with
  | nil =>
    intro acc out h
    injection h with h
    rw [h]
  | cons e rest ih =>
    intro acc out h
    cases hstep : omdbStep acc e with
    | error u =>
      unfold omdbLoop at h
      rw [hstep] at h
      cases h
    | ok acc2 =>
      have hrest : omdbLoop rest acc2 = .ok out := by
        unfold omdbLoop at h
        rw [hstep] at h
        exact h
      have h2 := ih acc2 out hrest
      rcases omdbStep_cases acc acc2 e hstep with he | ⟨v, x, _, _, _, _, he⟩ |
        ⟨v, x, _, _, _, _, he⟩
      · rw [h2, he]
      · rw [h2, he, plookup_dinsert_ne "RT" K x acc hRT]
      · rw [h2, he, plookup_dinsert_ne "MC" K x acc hMC]

/-- If every Rotten Tomatoes entry carries the `N/A` sentinel, the
loop never inserts an `RT` rating. -/
theorem omdbLoop_plookup_RT :
    ∀ (l : List OmdbRatingEntry) (acc out : List (String × ℚ)),
    (∀ e ∈ l, e.Source = some "Rotten Tomatoes" → e.Value = some "N/A") →
    omdbLoop l acc = .ok out → plookup out "RT" = plookup acc "RT" := by
  intro l
  induction l with
  | nil =>
    intro acc out _ h
    injection h with h
    rw [h]
  | cons e rest ih =>
    intro acc out hNA h
    cases hstep : omdbStep acc e with
    | error u =>
      unfold omdbLoop at h
      rw [hstep] at h
      cases h
    | ok acc2 =>
      have hrest : omdbLoop rest acc2 = .ok out := by
        unfold omdbLoop at h
        rw [hstep] at h
        exact h
      have h2 := ih acc2 out (fun e2 he2 => hNA e2 (by simp [he2])) hrest
      rcases omdbStep_cases acc acc2 e hstep with he | ⟨v, x, hs, hVal, hv, _, he⟩ |
        ⟨v, x, _, _, _, _, he⟩
      · rw [h2, he]
      · exact absurd (hNA e (by simp) hs) hv
      · rw [h2, he, plookup_dinsert_ne "MC" "RT" x acc (by decide)]

/-- If every Metacritic entry carries the `N/A` sentinel, the loop
never inserts an `MC` rating. -/
theorem omdbLoop_plookup_MC :
    ∀ (l : List OmdbRatingEntry) (acc out : List (String × ℚ)),
    (∀ e ∈ l, e.Source = some "Metacritic" → e.Value = some "N/A") →
    omdbLoop l acc = .ok out → plookup out "MC" = plookup acc "MC" := by
  intro l
  induction l with
  | nil =>
    intro acc out _ h
    injection h with h
    rw [h]
  | cons e rest ih =>
    intro acc out hNA h
    cases hstep : omdbStep acc e with
    | error u =>
      unfold omdbLoop at h
      rw [hstep] at h
      cases h
    | ok acc2 =>
      have hrest : omdbLoop rest acc2 = .ok out := by
        unfold omdbLoop at h
        rw [hstep] at h
        exact h
      have h2 := ih acc2 out (fun e2 he2 => hNA e2 (by simp [he2])) hrest
      rcases omdbStep_cases acc acc2 e hstep with he | ⟨v, x, _, _, _, _, he⟩ |
        ⟨v, x, hs, hVal, hv, _, he⟩
      · rw [h2, he]
      · rw [h2, he, plookup_dinsert_ne "RT" "MC" x acc (by decide)]
      · exact absurd (hNA e (by simp) hs) hv

/-- The initial dictionary holds at most an `IM` entry. -/
theorem plookup_imdbInit_ne (d : OmdbData) (K : String) (hK : K ≠ "IM") :
    plookup (imdbInit d) K = none := by
  cases hir : d.imdbRating with
  | none => simp [imdbInit, hir, plookup]
  | some s =>
    by_cases hcond : s ≠ "" ∧ s ≠ "N/A"
    · cases hx : pyFloat s with
      | none => simp [imdbInit, hir, hcond, hx, plookup]
      | some x =>
        have he : imdbInit d = [("IM", round1 (x * 10))] := by
          simp [imdbInit, hir, hcond, hx]
        rw [he, plookup_cons, if_neg (Ne.symm hK)]
        rfl
    · simp [imdbInit, hir, hcond, plookup]

/-- The `N/A` sentinel produces no initial `IM` entry. -/
theorem imdbInit_NA (d : OmdbData) (h : d.imdbRating = some "N/A") :
    imdbInit d = [] := by
  simp [imdbInit, h]

/-- Claim C4: the normalizer never emits a label for unavailable
data: an `N/A` primary score yields no `IM` entry, `N/A` Rotten
Tomatoes / Metacritic values yield no `RT` / `MC` entry, and a zero
or absent TMDB vote average yields no `TM` rating. -/
theorem sentinel_absent :
    (∀ (d : OmdbData) (out : List (String × ℚ)), parse_omdb_ratings d = .ok out →
      (d.imdbRating = some "N/A" → plookup out "IM" = none) ∧
      ((∀ e ∈ d.Ratings, e.Source = some "Rotten Tomatoes" → e.Value = some "N/A") →
        plookup out "RT" = none) ∧
      ((∀ e ∈ d.Ratings, e.Source = some "Metacritic" → e.Value = some "N/A") →
        plookup out "MC" = none)) ∧
    (∀ det : TmdbDetails, det.vote_average = some 0 →
      parse_tmdb_rating (some det) = none) ∧
    (∀ det : TmdbDetails, det.vote_average = none →
      parse_tmdb_rating (some det) = none) ∧
    parse_tmdb_rating none = none := by
  refine ⟨?_, ?_, ?_, rfl⟩
  · intro d out h
    refine ⟨?_, ?_, ?_⟩
    · intro hNA
      have h1 := omdbLoop_plookup_other "IM" (by decide) (by decide)
        d.Ratings (imdbInit d) out h
      rw [h1, imdbInit_NA d hNA]
      rfl
    · intro hAll
      have h1 := omdbLoop_plookup_RT d.Ratings (imdbInit d) out hAll h
      rw [h1, plookup_imdbInit_ne d "RT" (by decide)]
    · intro hAll
      have h1 := omdbLoop_plookup_MC d.Ratings (imdbInit d) out hAll h
      rw [h1, plookup_imdbInit_ne d "MC" (by decide)]
  · intro det h0
    simp [parse_tmdb_rating, h0]
  · intro det h0
    simp [parse_tmdb_rating, h0]

/-- Witness for the sentinel theorem at a concrete all-sentinel
payload. -/
theorem sentinel_absent_app :
    plookup ([] : List (String × ℚ)) "IM" = none ∧
    plookup ([] : List (String × ℚ)) "RT" = none ∧
    plookup ([] : List (String × ℚ)) "MC" = none := by
  have h := sentinel_absent.1
    ⟨some "N/A", [⟨some "Rotten Tomatoes", some "N/A"⟩, ⟨some "Metacritic", some "N/A"⟩]⟩
    [] (by decide)
  exact ⟨h.1 rfl, h.2.1 (by decide), h.2.2 (by decide)⟩

unseal Rat.add Rat.sub Rat.mul Rat.inv in
/-- Claim C3: the normalizer produces exactly the specified values on
the specified inputs: imdbRating 7.4 gives IM 74, Rotten Tomatoes 91
percent gives RT 91, Metacritic 65 of 100 gives MC 65, and a TMDB
vote average of 8.12 gives TM 81.2. -/
theorem normalizer_values :
    parse_omdb_ratings ⟨some "7.4", [⟨some "Rotten Tomatoes", some "91%"⟩,
      ⟨some "Metacritic", some "65/100"⟩]⟩ = .ok [("IM", 74), ("RT", 91), ("MC", 65)] ∧
    parse_tmdb_rating (some ⟨some (812/100)⟩) = some (812/10) := by
  exact ⟨by decide, by decide⟩

/-! ## Bounds of the rounding helpers -/

theorem roundHalfEven_bounds (q : ℚ) (n : ℤ) (h0 : 0 ≤ q) (hn : q ≤ (n : ℚ)) :
    0 ≤ roundHalfEven q ∧ roundHalfEven q ≤ n := by
  have hf0 : (0 : ℤ) ≤ ⌊q⌋ := Int.floor_nonneg.mpr h0
  have hfn : ⌊q⌋ ≤ n := by
    have h1 : ⌊q⌋ ≤ ⌊(n : ℚ)⌋ := Int.floor_le_floor hn
    simpa using h1
  have hle : (⌊q⌋ : ℚ) ≤ q := Int.floor_le q
  unfold roundHalfEven
  split_ifs with h1 h2 h3
  · exact ⟨hf0, hfn⟩
  · refine ⟨by omega, ?_⟩
    have hq : (⌊q⌋ : ℚ) < q := by linarith
    have hqn : ⌊q⌋ < n := by exact_mod_cast lt_of_lt_of_le hq hn
    omega
  · exact ⟨hf0, hfn⟩
  · refine ⟨by omega, ?_⟩
    have he : q - (⌊q⌋ : ℚ) = 1/2 := le_antisymm (not_lt.mp h2) (not_lt.mp h1)
    have hq : (⌊q⌋ : ℚ) < q := by linarith
    have hqn : ⌊q⌋ < n := by exact_mod_cast lt_of_lt_of_le hq hn
    omega

theorem round1_bounds (q : ℚ) (h0 : 0 ≤ q) (h100 : q ≤ 100) :
    0 ≤ round1 q ∧ round1 q ≤ 100 := by
  have h := roundHalfEven_bounds (q * 10) 1000 (by linarith) (by push_cast; linarith)
  have hl : (0 : ℚ) ≤ (roundHalfEven (q * 10) : ℚ) := by exact_mod_cast h.1
  have hu : (roundHalfEven (q * 10) : ℚ) ≤ 1000 := by exact_mod_cast h.2
  unfold round1
  constructor
  · linarith
  · linarith

/-- The loop keeps every score within the given bounds when every
entry it can insert is within those bounds. -/
theorem omdbLoop_bounds :
    ∀ (l : List OmdbRatingEntry) (acc out : List (String × ℚ)),
    omdbLoop l acc = .ok out →
    (∀ e ∈ l, ∀ v x, e.Value = some v →
      ((e.Source = some "Rotten Tomatoes" → pyFloat (stripPct v) = some x →
        0 ≤ x ∧ x ≤ 100) ∧
       (e.Source = some "Metacritic" → pyFloat (beforeSlash v) = some x →
        0 ≤ x ∧ x ≤ 100))) →
    (∀ p ∈ acc, 0 ≤ p.2 ∧ p.2 ≤ 100) → ∀ p ∈ out, 0 ≤ p.2 ∧ p.2 ≤ 100 := by
  intro l
  induction l with
  | nil =>
    intro acc out h _ hacc
    injection h with h
    rw [← h]
    exact hacc
  | cons e rest ih =>
    intro acc out h hl hacc
    cases hstep : omdbStep acc e with
    | error u =>
      unfold omdbLoop at h
      rw [hstep] at h
      cases h
    | ok acc2 =>
      have hrest : omdbLoop rest acc2 = .ok out := by
        unfold omdbLoop at h
        rw [hstep] at h
        exact h
      refine ih acc2 out hrest (fun e2 he2 => hl e2 (by simp [he2])) ?_
      rcases omdbStep_cases acc acc2 e hstep with he | ⟨v, x, hs, hVal, _, hx, he⟩ |
        ⟨v, x, hs, hVal, _, hx, he⟩
      · rw [he]
        exact hacc
      · subst he
        intro p hp
        rcases mem_dinsert p "RT" x acc hp with h1 | h1
        · have hb := ((hl e (by simp)) v x hVal).1 hs hx
          rw [h1]
          exact hb
        · exact hacc p h1
      · subst he
        intro p hp
        rcases mem_dinsert p "MC" x acc hp with h1 | h1
        · have hb := ((hl e (by simp)) v x hVal).2 hs hx
          rw [h1]
          exact hb
        · exact hacc p h1

/-- Claim C7 (amended): when the upstream raw values are within their
documented scales — the primary score parses to a value in 0..10, the
Rotten Tomatoes and Metacritic values parse to 0..100, and the vote
average is at most 10 — every score the normalizer produces lies in
0..100.  (As stated over every payload the claim is refuted by
`score_range_counterexample`: the code does not clamp.) -/
theorem score_range_bounded :
    (∀ (d : OmdbData) (out : List (String × ℚ)), parse_omdb_ratings d = .ok out →
      (∀ s x, d.imdbRating = some s → pyFloat s = some x → 0 ≤ x ∧ x ≤ 10) →
      (∀ e ∈ d.Ratings, ∀ v x, e.Value = some v →
        ((e.Source = some "Rotten Tomatoes" → pyFloat (stripPct v) = some x →
          0 ≤ x ∧ x ≤ 100) ∧
         (e.Source = some "Metacritic" → pyFloat (beforeSlash v) = some x →
          0 ≤ x ∧ x ≤ 100))) →
      ∀ p ∈ out, 0 ≤ p.2 ∧ p.2 ≤ 100) ∧
    (∀ (det : TmdbDetails) (v r : ℚ), det.vote_average = some v → v ≤ 10 →
      parse_tmdb_rating (some det) = some r → 0 ≤ r ∧ r ≤ 100) := by
  constructor
  · intro d out h hIM hRats
    refine omdbLoop_bounds d.Ratings (imdbInit d) out h hRats ?_
    cases hir : d.imdbRating with
    | none =>
      intro p hp
      have he : imdbInit d = [] := by simp [imdbInit, hir]
      rw [he] at hp
      cases hp
    | some s =>
      by_cases hcond : s ≠ "" ∧ s ≠ "N/A"
      · cases hx : pyFloat s with
        | none =>
          intro p hp
          have he : imdbInit d = [] := by simp [imdbInit, hir, hcond, hx]
          rw [he] at hp
          cases hp
        | some x =>
          intro p hp
          have he : imdbInit d = [("IM", round1 (x * 10))] := by
            simp [imdbInit, hir, hcond, hx]
          rw [he] at hp
          rcases List.mem_singleton.mp hp with rfl
          have hb := hIM s x hir hx
          have hr := round1_bounds (x * 10) (by linarith [hb.1]) (by linarith [hb.2])
          simpa using hr
      · intro p hp
        have he : imdbInit d = [] := by simp [imdbInit, hir, hcond]
        rw [he] at hp
        cases hp
  · intro det v r hva hv10 h
    simp only [parse_tmdb_rating, hva] at h
    split_ifs at h with hcond
    injection h with h
    obtain ⟨hne, hpos⟩ := hcond
    have hr := round1_bounds (v * 10) (by linarith) (by linarith)
    rw [← h]
    exact hr

unseal Rat.add Rat.sub Rat.mul Rat.inv in
/-- Counterexample to claim C7 as stated over every payload: the
payload with imdbRating 50 produces IM = 500, outside 0..100. -/
theorem score_range_counterexample :
    parse_omdb_ratings ⟨some "50", []⟩ = .ok [("IM", 500)] ∧
    ¬ ((500 : ℚ) ≤ 100) := by
  exact ⟨by decide, by decide⟩

/-! ## The request loop -/

theorem mrLoop_success (oracle : ℕ → Attempt) (attempt fuel : ℕ) (s : ℕ) (b : String)
    (hs : oracle attempt = .resp s b) (hok : (400 ≤ s && s < 600) = false) :
    mrLoop oracle attempt (fuel + 1) = (.success s b, attempt + 1, 0) := by
  simp [mrLoop, hs, hok]

theorem mrLoop_retry (oracle : ℕ → Attempt) (attempt fuel : ℕ)
    (hf : isFailAttempt (oracle attempt) = true)
    (hlast : (attempt == MAX_RETRIES - 1) = false) :
    mrLoop oracle attempt (fuel + 1) =
      ((mrLoop oracle (attempt + 1) fuel).1, (mrLoop oracle (attempt + 1) fuel).2.1,
       (mrLoop oracle (attempt + 1) fuel).2.2 + RETRY_DELAY) := by
  cases ho : oracle attempt with
  | resp s b =>
    have hss : (400 ≤ s && s < 600) = true := by
      simpa [isFailAttempt, ho] using hf
    simp [mrLoop, ho, hss, hlast]
  | timeout => simp [mrLoop, ho, hlast]
  | reqError m => simp [mrLoop, ho, hlast]

theorem mrLoop_last (oracle : ℕ → Attempt) (attempt fuel : ℕ)
    (hf : isFailAttempt (oracle attempt) = true)
    (hlast : (attempt == MAX_RETRIES - 1) = true) :
    mrLoop oracle attempt (fuel + 1) = (finalFail (oracle attempt), attempt + 1, 0) := by
  cases ho : oracle attempt with
  | resp s b =>
    have hss : (400 ≤ s && s < 600) = true := by
      simpa [isFailAttempt, ho] using hf
    simp [mrLoop, ho, hss, hlast, finalFail]
  | timeout => simp [mrLoop, ho, hlast, finalFail]
  | reqError m => simp [mrLoop, ho, hlast, finalFail]

/-- Claim C6 (amended): the gateway retries a timeout, a transport
failure, and equally a non-2xx HTTP status (whose `raise_for_status`
error is a `RequestException` caught by the retry loop) up to exactly
3 attempts with a fixed delay between attempts; the error surfaced
after the last attempt distinguishes a final timeout from any other
final failure, the latter carrying the cause.  A successful status
returns at once with no further attempts.  (The claim that a non-2xx
status is not retried is refuted by `http_retry_counterexample`.) -/
theorem http_retry_behavior (oracle : ℕ → Attempt) :
    ((∀ i, i < MAX_RETRIES → isFailAttempt (oracle i) = true) →
      make_request oracle =
        (finalFail (oracle (MAX_RETRIES - 1)), MAX_RETRIES,
          (MAX_RETRIES - 1) * RETRY_DELAY)) ∧
    (∀ k s b, k < MAX_RETRIES → (∀ i, i < k → isFailAttempt (oracle i) = true) →
      oracle k = .resp s b → (400 ≤ s && s < 600) = false →
      make_request oracle = (.success s b, k + 1, k * RETRY_DELAY)) := by
  constructor
  · intro hall
    have h2 : mrLoop oracle 2 1 = (finalFail (oracle 2), 3, 0) :=
      mrLoop_last oracle 2 0 (hall 2 (by decide)) (by decide)
    have h1 : mrLoop oracle 1 2 = (finalFail (oracle 2), 3, 0 + RETRY_DELAY) := by
      rw [mrLoop_retry oracle 1 1 (hall 1 (by decide)) (by decide), h2]
    have h0 : mrLoop oracle 0 3 =
        (finalFail (oracle 2), 3, 0 + RETRY_DELAY + RETRY_DELAY) := by
      rw [mrLoop_retry oracle 0 2 (hall 0 (by decide)) (by decide), h1]
    exact h0
  · intro k s b hk hprev hs hok
    have hk3 : k < 3 := hk
    interval_cases k
    · exact mrLoop_success oracle 0 2 s b hs hok
    · have h1 : mrLoop oracle 1 2 = (.success s b, 2, 0) :=
        mrLoop_success oracle 1 1 s b hs hok
      have h0 : mrLoop oracle 0 3 = (.success s b, 2, 0 + RETRY_DELAY) := by
        rw [mrLoop_retry oracle 0 2 (hprev 0 (by decide)) (by decide), h1]
      exact h0
    · have h2 : mrLoop oracle 2 1 = (.success s b, 3, 0) :=
        mrLoop_success oracle 2 0 s b hs hok
      have h1 : mrLoop oracle 1 2 = (.success s b, 3, 0 + RETRY_DELAY) := by
        rw [mrLoop_retry oracle 1 1 (hprev 1 (by decide)) (by decide), h2]
      have h0 : mrLoop oracle 0 3 =
          (.success s b, 3, 0 + RETRY_DELAY + RETRY_DELAY) := by
        rw [mrLoop_retry oracle 0 2 (hprev 0 (by decide)) (by decide), h1]
      exact h0

/-- Counterexample to claim C6 as stated: a non-2xx status (404 on
every attempt) is retried — three attempts are issued, not one — and
what surfaces is the same retry-exhaustion error kind, carrying the
status and body as its cause. -/
theorem http_retry_counterexample :
    make_request (fun _ => .resp 404 "Not Found") =
      (.failed (.resp 404 "Not Found"), 3, 2) ∧
    (make_request (fun _ => .resp 404 "Not Found")).2.1 ≠ 1 := by
  exact ⟨by decide, by decide⟩

/-- Witness for the retry theorem: all attempts time out. -/
theorem http_retry_behavior_app :
    make_request (fun _ => .timeout) = (.timedOut, 3, 2) := by
  have h := (http_retry_behavior (fun _ => .timeout)).1 (fun i _ => rfl)
  exact h.trans (by decide)

/-- Claim C9: token acquisition without a credential reports
unavailable and never attempts a login; a truthy cached token younger
than an hour is reused with no login; otherwise (no valid cached
token, or expired) a login request is attempted. -/
theorem tvdb_auth_state (st : TvdbAuthState) (now : ℚ) (login : LoginOutcome) :
    (st.tvdb_key = none → get_tvdb_token st now login = (none, st, false)) ∧
    (∀ t ts, truthyS st.tvdb_key = true → st.tvdb_token = some t → t ≠ "" →
      st.token_timestamp = some ts → ts ≠ 0 → now - ts < TOKEN_EXPIRY →
      get_tvdb_token st now login = (some t, st, false)) ∧
    (truthyS st.tvdb_key = true →
      (truthyS st.tvdb_token && truthyT st.token_timestamp &&
        decide (now - st.token_timestamp.getD 0 < TOKEN_EXPIRY)) = false →
      (get_tvdb_token st now login).2.2 = true) := by
  refine ⟨?_, ?_, ?_⟩
  · intro h
    simp [get_tvdb_token, h, truthyS]
  · intro t ts hkey htok hne hts hts0 hlt
    have h1 : truthyS (some t) = true := by simp [truthyS, hne]
    have h2 : truthyT (some ts) = true := by simp [truthyT, hts0]
    have h3 : decide (now - ts < TOKEN_EXPIRY) = true := by simpa using hlt
    simp [get_tvdb_token, hkey, htok, hts, h1, h2, h3]
  · intro hkey hcond
    cases login with
    | exn => simp [get_tvdb_token, hkey, hcond]
    | ok tok => simp [get_tvdb_token, hkey, hcond]

/-- Witness for the auth theorem: a fresh cached token is reused with
no login attempt. -/
theorem tvdb_auth_state_app :
    get_tvdb_token ⟨some "k", some "tok", some 100⟩ 200 .exn =
      (some "tok", ⟨some "k", some "tok", some 100⟩, false) := by
  refine (tvdb_auth_state ⟨some "k", some "tok", some 100⟩ 200 .exn).2.1 "tok" 100
    (by decide) rfl (by decide) rfl ?_ ?_
  · norm_num
  · norm_num [TOKEN_EXPIRY]

unseal Rat.add Rat.sub Rat.mul Rat.inv in
/-- Witness for the amended score-range theorem at a concrete
input. -/
theorem score_range_bounded_app : 0 ≤ (74 : ℚ) ∧ (74 : ℚ) ≤ 100 := by
  have h := score_range_bounded.1 ⟨some "7.4", []⟩ [("IM", 74)] (by decide)
    (by
      intro s x hs hx
      have hs2 : some "7.4" = some s := hs
      injection hs2 with hs3
      subst hs3
      have hpf : pyFloat "7.4" = some (37/5) := by decide
      rw [hpf] at hx
      injection hx with hx2
      subst hx2
      exact ⟨by decide, by decide⟩)
    (by
      intro e he
      cases he)
  exact h ("IM", 74) (by decide)

end PmdbMapper
